import Mathlib

/-!
Verification development for the NEAR ticketing repository:
`src/ticket/src/lib.rs` (ticket-sale contract) and
`src/ticket-factory/src/lib.rs` (factory contract).

The contracts are shallowly embedded: persistent `UnorderedMap`s/`HashMap`s
become association lists, machine integers become `Nat` with explicit
modulus where overflow matters, a panicking entry point becomes
`Except`-valued (a NEAR panic reverts every state write of the call, so an
`Except.error` result carries no state), and a promise chain issued by an
entry point is returned as an explicit record of the scheduled remote
sub-operations and continuation arguments.
-/

namespace TicketVerify

abbrev AccountId := String

/-- `MINT_FEE` of src/ticket/src/lib.rs (1_000_000_000_000_000_000_000_0). -/
def MINT_FEE : Nat := 10000000000000000000000

/-- `INITIAL_BALANCE` of src/ticket-factory/src/lib.rs. -/
def INITIAL_BALANCE : Nat := 6500000000000000000000000

/-- `CREATE_CONTRACT_FEE` of src/ticket-factory/src/lib.rs. -/
def CREATE_CONTRACT_FEE : Nat := 5000000000000000000000000

/-- Modulus of the `u32` counters (`supply`, `sold`). -/
def U32_MOD : Nat := 2 ^ 32

/-- Modulus of the `u128` balances. -/
def U128_MOD : Nat := 2 ^ 128

/-- Lookup in an association-list model of the contracts' string-keyed maps. -/
def getMap {α : Type} : List (String × α) → String → Option α
  | [], _ => none
  | (k, v) :: rest, key => if k = key then some v else getMap rest key

/-- Insert-or-replace in an association-list model of the contracts' maps. -/
def insertMap {α : Type} : List (String × α) → String → α → List (String × α)
  | [], key, v => [(key, v)]
  | (k, w) :: rest, key, v =>
      if k = key then (key, v) :: rest else (k, w) :: insertMap rest key v

/-- Rust `str::split(sep)` on the character list of a string:
`"a.b"` gives `["a","b"]`, `""` gives `[""]`, `"a..b"` gives `["a","","b"]`. -/
def splitChar (sep : Char) : List Char → List (List Char)
  | [] => [[]]
  | c :: cs =>
      let rest := splitChar sep cs
      if c = sep then [] :: rest
      else
        match rest with
        | [] => [[c]]
        | h :: t => (c :: h) :: t

/-- `token_id.split(".")` of `nft_private_mint` (Rust split semantics). -/
def rustSplitDot (s : String) : List String :=
  (splitChar '.' s.data).map (fun cs => String.mk cs)

structure TicketContractMetadata where
  spec : String
  name : String
  symbol : String
  description : Option String
deriving DecidableEq, Repr

structure TicketInfo where
  supply : Nat
  ticket_type : String
  price : Nat
  sold : Nat
  selling_start_time : Option Nat
  selling_end_time : Option Nat
deriving DecidableEq, Repr

structure ShowMetadata where
  show_id : String
  show_title : Option String
  show_description : Option String
  ticket_infos : List (String × TicketInfo)
  selling_start_time : Nat
  selling_end_time : Nat
deriving DecidableEq, Repr

structure TicketMetadata where
  ticket_id : String
  show_id : String
  ticket_type : String
  is_used : Bool
  issued_at : Nat
deriving DecidableEq, Repr

/-- State of the ticket-sale contract: the owner field, the part of the
external token ledger the contract reads (`tokens.owner_by_id`), and the
two `UnorderedMap`s `shows` and `tickets`. -/
structure Contract where
  owner_id : AccountId
  owner_by_id : List (String × AccountId)
  shows : List (String × ShowMetadata)
  tickets : List (String × TicketMetadata)
deriving DecidableEq, Repr

/-- Which `assert!`/`unwrap` of the ticket contract fired (a NEAR panic). -/
inductive TicketErr where
  | showExists
  | unauthorized
  | indexOutOfRange
  | showNotFound
  | notStarted
  | ended
  | typeNotFound
  | soldOut
  | insufficientDeposit
  | oneYoctoRequired
  | notOwner
  | ticketNotFound
  | tokenIdTaken
deriving DecidableEq, Repr

/-- Fuel-driven floor of the base-2 logarithm (`natLog2Aux n n` is
`Nat.log2 n` but reduces by kernel computation). -/
def natLog2Aux : Nat → Nat → Nat
  | 0, _ => 0
  | fuel + 1, n => if n ≤ 1 then 0 else natLog2Aux fuel (n / 2) + 1

/-- Floor of the base-2 logarithm of a positive natural. -/
def natLog2 (n : Nat) : Nat := natLog2Aux n n

/-- Decides `2 ^ e ≤ n / d` by integer comparison. -/
def pow2LEB (e : ℤ) (n d : Nat) : Bool :=
  if 0 ≤ e then decide (2 ^ e.toNat * d ≤ n) else decide (d ≤ 2 ^ (-e).toNat * n)

/-- The binade exponent of the positive rational `n / d`: the `e` with
`2 ^ e ≤ n / d < 2 ^ (e + 1)` (see `qFloorLog2_spec`). -/
def qFloorLog2 (n d : Nat) : ℤ :=
  let e0 : ℤ := (natLog2 n : ℤ) - (natLog2 d : ℤ)
  if pow2LEB (e0 + 1) n d then e0 + 1
  else if pow2LEB e0 n d then e0
  else e0 - 1

/-- Round `a / b` to the nearest natural, ties to even (the IEEE 754
default rounding used by Rust f64 arithmetic and integer-to-f64 casts). -/
def rneDiv (a b : Nat) : Nat :=
  let q := a / b
  let r := a % b
  if 2 * r < b then q
  else if b < 2 * r then q + 1
  else if q % 2 = 0 then q else q + 1

/-- The nonnegative rational `n / d` rounded to a binary64 value:
round to nearest even on a 53-bit significand. The exponent range is
unbounded: overflow (`≥ 2^1024`, which real f64 turns into `+inf`) is not
modelled and is excluded by hypothesis where it matters; the subnormal
regime (below `2^-1022`) keeps full precision here, which cannot change
any result of this contract since every such value lies strictly
between 0 and 1/2 both here and in IEEE 754, and the pipeline's
subsequent rounding to an integer sends both to 0. -/
def fl64PosPair (n d : Nat) : ℚ :=
  if n = 0 then 0
  else
    let s : ℤ := qFloorLog2 n d - 52
    if 0 ≤ s then ((rneDiv n (d * 2 ^ s.toNat) * 2 ^ s.toNat : ℕ) : ℚ)
    else mkRat (rneDiv (n * 2 ^ (-s).toNat) d) (2 ^ (-s).toNat)

/-- The rational `n / d` (`d ≠ 0`) rounded to a binary64 value, signs
handled symmetrically as IEEE 754 round-to-nearest does. -/
def fl64Pair (n : ℤ) (d : Nat) : ℚ :=
  if n < 0 then -fl64PosPair (-n).toNat d else fl64PosPair n.toNat d

/-- Rust `f64::round` semantics on an (already binary64) rational value:
round half away from zero to an integer, computed on the numerator and
denominator so it evaluates by kernel reduction. For the relation to
`Int.floor` see `ratRoundHalfAway_of_nonneg`. -/
def ratRoundHalfAway (q : ℚ) : ℤ :=
  if 0 ≤ q.num then (2 * q.num + (q.den : ℤ)) / (2 * (q.den : ℤ))
  else -((2 * (-q.num) + (q.den : ℤ)) / (2 * (q.den : ℤ)))

/-- The exact minimal-unit scale 10^24 that §4.2 of the spec prescribes. -/
def TEN24 : ℤ := 1000000000000000000000000

/-- The f64 scale the CODE actually multiplies by:
`1_000_000_000_000_000_000_000_000u128 as f64`. The u128-to-f64 cast
rounds to nearest even, and 10^24 needs 56 significant bits, so the
constant is `10^24 - 2^24 = 999999999999999983222784`, not 10^24
(`fl64Pair TEN24 1` evaluates to exactly this value, see
`fl64Pair_ten24`). -/
def FL64_TEN24 : ℤ := 999999999999999983222784

/-- Rust float-to-integer `as u128` cast: saturating (negative and NaN go
to 0, values above range go to `u128::MAX`). -/
def u128SaturatingOfInt (i : ℤ) : Nat :=
  if i < 0 then 0 else min i.toNat (U128_MOD - 1)

/-- The price computed in `create_new_show`:
`(ticket_prices[i] * 1e24).round() as u128 + MINT_FEE`, in f64: the
input `p` is the exact value of the `f64` price argument, the constant
is the f64 image `FL64_TEN24` of the 10^24 literal, the product
`p.num * FL64_TEN24 / p.den` is rounded to binary64 by `fl64Pair`
(round to nearest even), `.round()` rounds ties away from zero, and the
cast saturates. -/
def computedTicketPrice (p : ℚ) : Nat :=
  (u128SaturatingOfInt (ratRoundHalfAway (fl64Pair (p.num * FL64_TEN24) p.den))
    + MINT_FEE) % U128_MOD

/-- The price function as §4.2 of the spec words it: reject a negative
price (`InvalidPrice`, modelled as `none`), else scale by the exact
minimal-unit factor 10^24, round half away from zero, and add the fixed
fee. Written from the SPEC for comparison with `computedTicketPrice`,
which is written from the source. -/
def price_for_spec (p : ℚ) (fixed_fee : Nat) : Option Nat :=
  if p < 0 then none
  else some ((ratRoundHalfAway (mkRat (p.num * TEN24) p.den)).toNat + fixed_fee)

/-- The loop body of `create_new_show`: for each `i < ticket_types.len()`
it indexes `tickets_supply[i]` and `ticket_prices[i]` (a panic when either
vector is too short) and inserts a fresh `TicketInfo` with `sold = 0`. -/
def buildTicketInfos : List String → List Nat → List ℚ →
    List (String × TicketInfo) → Except TicketErr (List (String × TicketInfo))
  | [], _, _, acc => .ok acc
  | ty :: tys, s :: ss, p :: ps, acc =>
      buildTicketInfos tys ss ps (insertMap acc ty
        { supply := s, ticket_type := ty, price := computedTicketPrice p,
          sold := 0, selling_start_time := some 0, selling_end_time := some 0 })
  | _ :: _, _, _, _ => .error .indexOutOfRange

/-- `create_new_show` of src/ticket/src/lib.rs. -/
def create_new_show (c : Contract) (caller : AccountId) (show_id : String)
    (show_title show_description : Option String)
    (ticket_types : List String) (tickets_supply : List Nat)
    (ticket_prices : List ℚ)
    (selling_start_time selling_end_time : Nat) : Except TicketErr Contract :=
  if (getMap c.shows show_id).isSome = true then .error .showExists
  else if caller ≠ c.owner_id then .error .unauthorized
  else
    match buildTicketInfos ticket_types tickets_supply ticket_prices [] with
    | .error e => .error e
    | .ok infos =>
        let sh : ShowMetadata :=
          { show_id := show_id, show_title := show_title,
            show_description := show_description, ticket_infos := infos,
            selling_start_time := selling_start_time,
            selling_end_time := selling_end_time }
        .ok { c with shows := insertMap c.shows show_id sh }

/-- The promise chain returned by `buy_ticket`: a self call of
`nft_private_mint(ticket_id, receiver_id)` with `MINT_FEE` attached,
continued by `check_mint(buyer, price)`. -/
structure BuyPromise where
  ticket_id : String
  receiver_id : AccountId
  mint_attached : Nat
  cb_buyer : AccountId
  cb_price : Nat
deriving DecidableEq, Repr

/-- `buy_ticket` of src/ticket/src/lib.rs. It mutates nothing (the
returned contract is the input); it only validates and schedules the
chain. -/
def buy_ticket (c : Contract) (caller : AccountId) (deposit : Nat) (now : Nat)
    (show_id ticket_type : String) : Except TicketErr (Contract × BuyPromise) :=
  match getMap c.shows show_id with
  | none => .error .showNotFound
  | some sh =>
    if ¬ (now > sh.selling_start_time) then .error .notStarted
    else if ¬ (now < sh.selling_end_time) then .error .ended
    else
      match getMap sh.ticket_infos ticket_type with
      | none => .error .typeNotFound
      | some info =>
        if ¬ (info.sold < info.supply) then .error .soldOut
        else if ¬ (deposit ≥ info.price) then .error .insufficientDeposit
        else .ok (c,
          { ticket_id := show_id ++ "." ++ ticket_type ++ "." ++ Nat.repr info.sold,
            receiver_id := caller, mint_attached := MINT_FEE,
            cb_buyer := caller, cb_price := info.price })

/-- Modelled from the spec: `self.tokens.mint` of the external token
ledger (an out-of-scope collaborator, not under src/). Per §3 a token is
minted exactly once — mint fails when the token id already exists,
otherwise it records the receiver as the token's owner. -/
def ledgerMint (owner_by_id : List (String × AccountId)) (token_id : String)
    (receiver : AccountId) : Except TicketErr (List (String × AccountId)) :=
  if (getMap owner_by_id token_id).isSome = true then .error .tokenIdTaken
  else .ok (insertMap owner_by_id token_id receiver)

/-- `nft_private_mint` of src/ticket/src/lib.rs: `#[private]` (caller must
be the contract account), splits the token id on `"."`, takes segments 0
and 1 as show id and ticket type, increments `sold` (a `u32`), writes the
ticket metadata, and mints through the ledger. -/
def nft_private_mint (c : Contract) (caller current : AccountId) (now : Nat)
    (token_id : String) (receiver_id : AccountId) : Except TicketErr Contract :=
  if caller ≠ current then .error .unauthorized
  else
    match rustSplitDot token_id with
    | sid :: ty :: _ =>
      match getMap c.shows sid with
      | none => .error .showNotFound
      | some sh =>
        match getMap sh.ticket_infos ty with
        | none => .error .typeNotFound
        | some info =>
          let info2 := { info with sold := (info.sold + 1) % U32_MOD }
          let sh2 := { sh with ticket_infos := insertMap sh.ticket_infos ty info2 }
          match ledgerMint c.owner_by_id token_id receiver_id with
          | .error e => .error e
          | .ok led2 =>
              .ok { c with
                shows := insertMap c.shows sid sh2,
                tickets := insertMap c.tickets token_id
                  { ticket_id := token_id, show_id := sid, ticket_type := ty,
                    is_used := false, issued_at := now },
                owner_by_id := led2 }
    | _ => .error .indexOutOfRange

/-- Outcome of one remote sub-operation as the continuation observes it. -/
inductive PromiseResult where
  | notReady
  | successful
  | failed
deriving DecidableEq, Repr

/-- The scan loop shared by both continuations: `result` starts `true`
and flips on the first `Failed` promise result. -/
def anyFailed : List PromiseResult → Bool
  | [] => false
  | r :: rs => if r = .failed then true else anyFailed rs

/-- `check_mint` of src/ticket/src/lib.rs: reads `&self` (no state
write); returns the single transfer it issues, if any. -/
def check_mint (buyer : AccountId) (price : Nat)
    (results : List PromiseResult) : Option (AccountId × Nat) :=
  if anyFailed results = true then some (buyer, price) else none

/-- `check_ticket` of src/ticket/src/lib.rs (redemption). -/
def check_ticket (c : Contract) (caller : AccountId) (deposit : Nat)
    (ticket_id : String) : Except TicketErr Contract :=
  if deposit ≠ 1 then .error .oneYoctoRequired
  else if getMap c.owner_by_id ticket_id ≠ some caller then .error .notOwner
  else
    match getMap c.tickets ticket_id with
    | none => .error .ticketNotFound
    | some t =>
        .ok { c with tickets := insertMap c.tickets ticket_id { t with is_used := true } }

/-- State of the factory contract. -/
structure FactoryContract where
  owner_id : AccountId
  ticket_contracts_by_owner : List (AccountId × List AccountId)
deriving DecidableEq, Repr

/-- The remote chain issued by `create_new_ticket_contract`:
create account, transfer `INITIAL_BALANCE`, add the signer's full-access
key, deploy the code, call `new(predecessor, metadata)`, then continue
with `check_create_new_contract(predecessor)`. -/
structure FactoryPromise where
  subaccount_id : AccountId
  created_account : Bool
  transferred : Nat
  full_access_key : String
  deployed_code : Bool
  init_owner_id : AccountId
  init_metadata : TicketContractMetadata
  cb_creater_account : AccountId
deriving DecidableEq, Repr

inductive FactoryErr where
  | insufficientDeposit
deriving DecidableEq, Repr

/-- `create_new_ticket_contract` of src/ticket-factory/src/lib.rs. -/
def create_new_ticket_contract (c : FactoryContract) (caller : AccountId)
    (deposit : Nat) (current : AccountId) (signer_pk : String) (pfx : String)
    (metadata : TicketContractMetadata) :
    Except FactoryErr (FactoryContract × FactoryPromise) :=
  if deposit ≠ CREATE_CONTRACT_FEE + INITIAL_BALANCE then .error .insufficientDeposit
  else
    let subaccount_id := pfx ++ "." ++ current
    let old := (getMap c.ticket_contracts_by_owner caller).getD []
    .ok ({ c with ticket_contracts_by_owner :=
            insertMap c.ticket_contracts_by_owner caller (old ++ [subaccount_id]) },
         { subaccount_id := subaccount_id, created_account := true,
           transferred := INITIAL_BALANCE, full_access_key := signer_pk,
           deployed_code := true, init_owner_id := caller,
           init_metadata := metadata, cb_creater_account := caller })

/-- `check_create_new_contract` of src/ticket-factory/src/lib.rs: takes
`&mut self` but writes nothing; returns the state (unchanged) and the
single transfer it issues, if any. -/
def check_create_new_contract (c : FactoryContract) (creater_account : AccountId)
    (results : List PromiseResult) : FactoryContract × Option (AccountId × Nat) :=
  (c, if anyFailed results = true
      then some (creater_account, INITIAL_BALANCE + CREATE_CONTRACT_FEE)
      else none)

/-- `get_contracts_by_owner` of src/ticket-factory/src/lib.rs. -/
def get_contracts_by_owner (c : FactoryContract) (owner_id : AccountId) :
    List AccountId :=
  (getMap c.ticket_contracts_by_owner owner_id).getD []

/-- The `sold` counter of one ticket type, read off a contract state. -/
def soldOf (c : Contract) (sid ty : String) : Option Nat :=
  (getMap c.shows sid).bind (fun sh => (getMap sh.ticket_infos ty).map (fun i => i.sold))

/-- The `supply` of one ticket type, read off a contract state. -/
def supplyOf (c : Contract) (sid ty : String) : Option Nat :=
  (getMap c.shows sid).bind (fun sh => (getMap sh.ticket_infos ty).map (fun i => i.supply))

/-- The `price` of one ticket type, read off a contract state. -/
def priceOfType (c : Contract) (sid ty : String) : Option Nat :=
  (getMap c.shows sid).bind (fun sh => (getMap sh.ticket_infos ty).map (fun i => i.price))

/-- Unwrap an `Except.ok`, with a fallback for the error case. -/
def okOr {ε α : Type} (e : Except ε α) (d : α) : α :=
  match e with
  | .ok a => a
  | .error _ => d

def fcW : FactoryContract := { owner_id := "factory-owner", ticket_contracts_by_owner := [] }

def mdW : TicketContractMetadata :=
  { spec := "nft-1.0.0", name := "Gala", symbol := "GALA", description := none }

/-- The state and chain an admitted factory call returns: the caller's
listing extended by the new subaccount, and the full remote chain. -/
def factoryAdmitted (c : FactoryContract) (caller current pk pfx : String)
    (md : TicketContractMetadata) : FactoryContract × FactoryPromise :=
  let l := get_contracts_by_owner c caller ++ [pfx ++ "." ++ current]
  ({ c with ticket_contracts_by_owner := insertMap c.ticket_contracts_by_owner caller l },
   { subaccount_id := pfx ++ "." ++ current, created_account := true,
     transferred := INITIAL_BALANCE, full_access_key := pk, deployed_code := true,
     init_owner_id := caller, init_metadata := md, cb_creater_account := caller })

def fcWafter : FactoryContract :=
  let l := get_contracts_by_owner fcW "al" ++ ["gala" ++ "." ++ "factory"]
  { fcW with ticket_contracts_by_owner := insertMap fcW.ticket_contracts_by_owner "al" l }

def prW : FactoryPromise :=
  { subaccount_id := "gala" ++ "." ++ "factory", created_account := true,
    transferred := INITIAL_BALANCE, full_access_key := "pk", deployed_code := true,
    init_owner_id := "al", init_metadata := mdW, cb_creater_account := "al" }

def bugC0 : Contract := { owner_id := "org", owner_by_id := [], shows := [], tickets := [] }

def bugC1 : Contract :=
  okOr (create_new_show bugC0 "org" "a" none none ["b"] [1] [1] 0 1000) bugC0

def bugC2 : Contract :=
  okOr (create_new_show bugC1 "org" "a.b" none none ["c", "d"] [1, 1] [1, 1] 0 1000) bugC0

def bugP1 : BuyPromise :=
  { ticket_id := "a.b.c.0", receiver_id := "alice", mint_attached := MINT_FEE,
    cb_buyer := "alice", cb_price := computedTicketPrice 1 }

def bugP2 : BuyPromise :=
  { ticket_id := "a.b.d.0", receiver_id := "bob", mint_attached := MINT_FEE,
    cb_buyer := "bob", cb_price := computedTicketPrice 1 }

def bugC3 : Contract := okOr (nft_private_mint bugC2 "tix" "tix" 5 "a.b.c.0" "alice") bugC0

def bugC4 : Contract := okOr (nft_private_mint bugC3 "tix" "tix" 6 "a.b.d.0" "bob") bugC0

def negShowC : Contract :=
  okOr (create_new_show bugC0 "org" "neg" none none ["t"] [5] [-1] 0 100) bugC0

def c5info : TicketInfo :=
  { supply := 10, ticket_type := "t", price := 50, sold := 0,
    selling_start_time := some 0, selling_end_time := some 0 }

def c5show : ShowMetadata :=
  { show_id := "s", show_title := none, show_description := none,
    ticket_infos := [("t", c5info)], selling_start_time := 5, selling_end_time := 10 }

def c5c : Contract :=
  { owner_id := "org", owner_by_id := [], shows := [("s", c5show)], tickets := [] }

def c6info : TicketInfo :=
  { supply := 10, ticket_type := "t", price := 50, sold := 3,
    selling_start_time := some 0, selling_end_time := some 0 }

def c6show : ShowMetadata :=
  { show_id := "s", show_title := none, show_description := none,
    ticket_infos := [("t", c6info)], selling_start_time := 0, selling_end_time := 100 }

def c6c : Contract :=
  { owner_id := "org", owner_by_id := [], shows := [("s", c6show)], tickets := [] }

def c6pr : BuyPromise :=
  { ticket_id := "s.t.3", receiver_id := "al", mint_attached := MINT_FEE,
    cb_buyer := "al", cb_price := 50 }

def c6mintC : Contract := okOr (nft_private_mint c6c "me" "me" 7 "s.t.3" "al") bugC0

def c9t : TicketMetadata :=
  { ticket_id := "s.t.0", show_id := "s", ticket_type := "t",
    is_used := false, issued_at := 3 }

def c9c : Contract :=
  { owner_id := "org", owner_by_id := [("s.t.0", "al"), ("x", "al")], shows := [],
    tickets := [("s.t.0", c9t)] }

def c9c2 : Contract :=
  { c9c with tickets := insertMap c9c.tickets "s.t.0" { c9t with is_used := true } }

instance {ε α : Type} [DecidableEq ε] [DecidableEq α] : DecidableEq (Except ε α)
  | .ok a, .ok b => if h : a = b then .isTrue (by rw [h]) else .isFalse (by simp [h])
  | .error e, .error f => if h : e = f then .isTrue (by rw [h]) else .isFalse (by simp [h])
  | .ok _, .error _ => .isFalse (by simp)
  | .error _, .ok _ => .isFalse (by simp)

theorem getMap_insertMap_self {α : Type} (l : List (String × α)) (k : String) (v : α) :
    getMap (insertMap l k v) k = some v := by
  induction l with
  | nil => simp [insertMap, getMap]
  | cons p rest ih =>
      obtain ⟨k2, w⟩ := p
      by_cases h : k2 = k <;> simp [insertMap, getMap, h, ih]

theorem getMap_insertMap_ne {α : Type} (l : List (String × α)) (k k2 : String) (v : α)
    (h : k ≠ k2) : getMap (insertMap l k v) k2 = getMap l k2 := by
  induction l with
  | nil => simp [insertMap, getMap, h]
  | cons p rest ih =>
      obtain ⟨k3, w⟩ := p
      by_cases h3 : k3 = k
      · subst h3; simp [insertMap, getMap, h]
      · simp only [insertMap, if_neg h3, getMap]
        by_cases h4 : k3 = k2 <;> simp [h4, ih]

theorem getMap_insertMap_isSome {α : Type} (l : List (String × α)) (k k2 : String)
    (v : α) (h : (getMap l k2).isSome = true) :
    (getMap (insertMap l k v) k2).isSome = true := by
  by_cases hk : k = k2
  · subst hk; simp [getMap_insertMap_self]
  · rw [getMap_insertMap_ne l k k2 v hk]; exact h

theorem insertMap_insertMap_self {α : Type} (l : List (String × α)) (k : String)
    (v w : α) : insertMap (insertMap l k v) k w = insertMap l k w := by
  induction l with
  | nil => simp [insertMap]
  | cons p rest ih =>
      obtain ⟨k2, u⟩ := p
      by_cases h : k2 = k
      · subst h; simp [insertMap]
      · simp [insertMap, h, ih]

theorem anyFailed_iff (rs : List PromiseResult) :
    anyFailed rs = true ↔ ∃ r ∈ rs, r = PromiseResult.failed := by
  induction rs with
  | nil => simp [anyFailed]
  | cons r rs ih =>
      by_cases h : r = PromiseResult.failed
      · subst h
        constructor
        · intro _
          exact ⟨PromiseResult.failed, List.mem_cons_self _ _, rfl⟩
        · intro _
          simp [anyFailed]
      · have hr : anyFailed (r :: rs) = anyFailed rs := by simp [anyFailed, h]
        rw [hr, ih]
        constructor
        · rintro ⟨x, hx, hxe⟩
          exact ⟨x, List.mem_cons_of_mem _ hx, hxe⟩
        · rintro ⟨x, hx, hxe⟩
          rcases List.mem_cons.mp hx with h1 | h1
          · exact absurd (h1 ▸ hxe) h
          · exact ⟨x, h1, hxe⟩

theorem anyFailed_eq_false_of_successful (rs : List PromiseResult)
    (h : ∀ r ∈ rs, r = PromiseResult.successful) : anyFailed rs = false := by
  cases hf : anyFailed rs with
  | false => rfl
  | true =>
      obtain ⟨r, hr, hfl⟩ := (anyFailed_iff rs).mp hf
      have := h r hr
      simp [this] at hfl

/-- C1: in both continuations (`check_mint` of the sale saga and
`check_create_new_contract` of the factory saga), observing at least one
`Failed` remote result triggers exactly one transfer of the full
originally charged amount (the `price` parameter for the sale; the
constant `CREATE_CONTRACT_FEE + INITIAL_BALANCE` for the factory) to the
caller passed as parameter, and the factory state is untouched; when
every observed result succeeded, no transfer is issued and the state is
untouched. -/
theorem claim_C1_continuation_refund (buyer creater : AccountId) (price : Nat)
    (fc : FactoryContract) (results : List PromiseResult) :
    ((∃ r ∈ results, r = PromiseResult.failed) →
        check_mint buyer price results = some (buyer, price) ∧
        check_create_new_contract fc creater results =
          (fc, some (creater, INITIAL_BALANCE + CREATE_CONTRACT_FEE))) ∧
    ((∀ r ∈ results, r = PromiseResult.successful) →
        check_mint buyer price results = none ∧
        check_create_new_contract fc creater results = (fc, none)) := by
  constructor
  · intro h
    have hf : anyFailed results = true := (anyFailed_iff results).mpr h
    simp [check_mint, check_create_new_contract, hf]
  · intro h
    have hf : anyFailed results = false := anyFailed_eq_false_of_successful results h
    simp [check_mint, check_create_new_contract, hf]

/-- Witness for C1 at concrete inputs. -/
theorem claim_C1_continuation_refund_witness :
    (check_mint "buyer" 7 [PromiseResult.successful, PromiseResult.failed] = some ("buyer", 7) ∧
      check_create_new_contract fcW "cr" [PromiseResult.successful, PromiseResult.failed] =
        (fcW, some ("cr", INITIAL_BALANCE + CREATE_CONTRACT_FEE))) ∧
    (check_mint "buyer" 7 [PromiseResult.successful] = none ∧
      check_create_new_contract fcW "cr" [PromiseResult.successful] = (fcW, none)) := by
  constructor
  · exact (claim_C1_continuation_refund "buyer" "cr" 7 fcW
      [PromiseResult.successful, PromiseResult.failed]).1 (by decide)
  · exact (claim_C1_continuation_refund "buyer" "cr" 7 fcW
      [PromiseResult.successful]).2 (by decide)

set_option maxRecDepth 40000 in
/-- C2 fails on the code: `sold ≤ supply` is violated by a plain
sequential run of admitted `buy_ticket` calls and their
`nft_private_mint` confirmations. The owner creates show `"a"` (type
`"b"`, supply 1) and show `"a.b"` (types `"c"` and `"d"`, supply 1 each).
Buying type `"c"` of show `"a.b"` is admitted and mints token
`"a.b.c.0"`; `nft_private_mint` splits that id on `"."` and takes the
first two segments, so it increments show `"a"` type `"b"`. The second
purchase (type `"d"`) mints `"a.b.d.0"` and increments the same counter
again: show `"a"` type `"b"` ends with `sold = 2 > supply = 1`, although
every validation passed and both mints succeeded (the minted token ids
are distinct, so even the ledger's duplicate-id rejection does not
interfere). -/
theorem claim_C2_code_bug_trace :
    create_new_show bugC0 "org" "a" none none ["b"] [1] [1] 0 1000 = .ok bugC1 ∧
    create_new_show bugC1 "org" "a.b" none none ["c", "d"] [1, 1] [1, 1] 0 1000 = .ok bugC2 ∧
    buy_ticket bugC2 "alice" (computedTicketPrice 1) 5 "a.b" "c" = .ok (bugC2, bugP1) ∧
    nft_private_mint bugC2 "tix" "tix" 5 bugP1.ticket_id "alice" = .ok bugC3 ∧
    buy_ticket bugC3 "bob" (computedTicketPrice 1) 6 "a.b" "d" = .ok (bugC3, bugP2) ∧
    nft_private_mint bugC3 "tix" "tix" 6 bugP2.ticket_id "bob" = .ok bugC4 ∧
    soldOf bugC4 "a" "b" = some 2 ∧
    supplyOf bugC4 "a" "b" = some 1 := by
  decide

/-- C3: `create_new_ticket_contract` with attached deposit not exactly
`CREATE_CONTRACT_FEE + INITIAL_BALANCE` (below or above) fails the
leading assert with zero side effects: the result is the
`InsufficientDeposit` panic and is never `.ok`, so no updated state (in
particular no listing entry) and no remote chain exists — the assert is
the first statement of the function, before the listing push and the
promise construction, and a NEAR panic reverts the call. With the
deposit exactly equal, the call is admitted, returning the state with
the caller's listing extended and the full remote chain (create
account, transfer `INITIAL_BALANCE`, add the signer key, deploy, init,
continuation). -/
theorem claim_C3_exact_deposit (c : FactoryContract) (caller current pk pfx : String)
    (md : TicketContractMetadata) (deposit : Nat) :
    (deposit ≠ CREATE_CONTRACT_FEE + INITIAL_BALANCE →
      create_new_ticket_contract c caller deposit current pk pfx md =
        .error .insufficientDeposit ∧
      ∀ (c2 : FactoryContract) (pr : FactoryPromise),
        create_new_ticket_contract c caller deposit current pk pfx md ≠ .ok (c2, pr)) ∧
    (deposit = CREATE_CONTRACT_FEE + INITIAL_BALANCE →
      create_new_ticket_contract c caller deposit current pk pfx md =
        .ok (factoryAdmitted c caller current pk pfx md)) := by
  constructor
  · intro h
    constructor
    · simp [create_new_ticket_contract, h]
    · intro c2 pr
      simp [create_new_ticket_contract, h]
  · intro h
    simp [create_new_ticket_contract, factoryAdmitted, h, get_contracts_by_owner]

/-- Witness for C3 at concrete inputs: deposits one below and one above
the exact sum are rejected and yield no admitted output; the exact
deposit is admitted with the appended listing and the promise record. -/
theorem claim_C3_exact_deposit_witness :
    (create_new_ticket_contract fcW "al" (CREATE_CONTRACT_FEE + INITIAL_BALANCE - 1)
      "factory" "pk" "gala" mdW = .error .insufficientDeposit) ∧
    (create_new_ticket_contract fcW "al" (CREATE_CONTRACT_FEE + INITIAL_BALANCE + 1)
      "factory" "pk" "gala" mdW = .error .insufficientDeposit) ∧
    (create_new_ticket_contract fcW "al" (CREATE_CONTRACT_FEE + INITIAL_BALANCE - 1)
      "factory" "pk" "gala" mdW ≠ .ok (fcWafter, prW)) ∧
    (create_new_ticket_contract fcW "al" (CREATE_CONTRACT_FEE + INITIAL_BALANCE)
      "factory" "pk" "gala" mdW = .ok (fcWafter, prW)) := by
  refine ⟨?_, ?_, ?_, ?_⟩
  · exact ((claim_C3_exact_deposit fcW "al" "factory" "pk" "gala" mdW _).1 (by decide)).1
  · exact ((claim_C3_exact_deposit fcW "al" "factory" "pk" "gala" mdW _).1 (by decide)).1
  · exact ((claim_C3_exact_deposit fcW "al" "factory" "pk" "gala" mdW _).1
      (by decide)).2 fcWafter prW
  · exact (claim_C3_exact_deposit fcW "al" "factory" "pk" "gala" mdW _).2 rfl

theorem natLog2Aux_spec : ∀ (fuel n : Nat), 1 ≤ n → n ≤ fuel →
    2 ^ natLog2Aux fuel n ≤ n ∧ n < 2 ^ (natLog2Aux fuel n + 1) := by
  intro fuel
  induction fuel with
  | zero => intro n h1 h2; omega
  | succ fuel ih =>
      intro n h1 h2
      by_cases h : n ≤ 1
      · have hn : n = 1 := by omega
        subst hn
        simp [natLog2Aux]
      · have hrec := ih (n / 2) (by omega) (by omega)
        simp only [natLog2Aux, if_neg h, pow_succ] at hrec ⊢
        omega

theorem natLog2_spec (n : Nat) (h : 1 ≤ n) :
    2 ^ natLog2 n ≤ n ∧ n < 2 ^ (natLog2 n + 1) :=
  natLog2Aux_spec n n h le_rfl

theorem rneDiv_spec (a b : Nat) (hb : 1 ≤ b) :
    |((rneDiv a b : Nat) : ℚ) - (a : ℚ) / (b : ℚ)| ≤ 1 / 2 := by
  have hb0 : (0 : ℚ) < (b : ℚ) := by exact_mod_cast hb
  have hQR : (b : ℚ) * ((a / b : Nat) : ℚ) + ((a % b : Nat) : ℚ) = (a : ℚ) := by
    exact_mod_cast Nat.div_add_mod a b
  have hx : (a : ℚ) / (b : ℚ) = ((a / b : Nat) : ℚ) + ((a % b : Nat) : ℚ) / (b : ℚ) := by
    field_simp
    linarith
  have hRB0 : (0 : ℚ) ≤ ((a % b : Nat) : ℚ) / (b : ℚ) := by positivity
  have hRB1 : ((a % b : Nat) : ℚ) / (b : ℚ) < 1 := by
    rw [div_lt_one hb0]
    exact_mod_cast Nat.mod_lt a hb
  simp only [rneDiv]
  by_cases h1 : 2 * (a % b) < b
  · have h1q : 2 * ((a % b : Nat) : ℚ) < (b : ℚ) := by exact_mod_cast h1
    have hRB2 : ((a % b : Nat) : ℚ) / (b : ℚ) < 1 / 2 := by
      rw [div_lt_iff hb0]
      linarith
    rw [if_pos h1, hx, abs_sub_le_iff]
    constructor <;> linarith
  · rw [if_neg h1]
    by_cases h2 : b < 2 * (a % b)
    · have h2q : (b : ℚ) < 2 * ((a % b : Nat) : ℚ) := by exact_mod_cast h2
      have hRB2 : 1 / 2 < ((a % b : Nat) : ℚ) / (b : ℚ) := by
        rw [lt_div_iff hb0]
        linarith
      rw [if_pos h2, hx]
      push_cast
      rw [abs_sub_le_iff]
      constructor <;> linarith
    · have htie : 2 * ((a % b : Nat) : ℚ) = (b : ℚ) := by
        exact_mod_cast (by omega : 2 * (a % b) = b)
      have hRB2 : ((a % b : Nat) : ℚ) / (b : ℚ) = 1 / 2 := by
        rw [div_eq_iff (ne_of_gt hb0)]
        linarith
      rw [if_neg h2]
      by_cases h3 : a / b % 2 = 0
      · rw [if_pos h3, hx, abs_sub_le_iff]
        constructor <;> linarith
      · rw [if_neg h3, hx]
        push_cast
        rw [abs_sub_le_iff]
        constructor <;> linarith

theorem pow2LEB_iff (e : ℤ) (n d : Nat) (hd : 1 ≤ d) :
    pow2LEB e n d = true ↔ (2 : ℚ) ^ e ≤ (n : ℚ) / (d : ℚ) := by
  have hd0 : (0 : ℚ) < (d : ℚ) := by exact_mod_cast hd
  simp only [pow2LEB]
  by_cases he : 0 ≤ e
  · rw [if_pos he, decide_eq_true_eq, le_div_iff hd0]
    have hcast : ((2 ^ e.toNat * d : ℕ) : ℚ) = (2 : ℚ) ^ e * (d : ℚ) := by
      push_cast
      rw [← zpow_natCast (2 : ℚ) e.toNat, Int.toNat_of_nonneg he]
    constructor
    · intro h
      rw [← hcast]
      exact_mod_cast h
    · intro h
      rw [← hcast] at h
      exact_mod_cast h
  · rw [if_neg he, decide_eq_true_eq]
    have hke : e = -(((-e).toNat : ℕ) : ℤ) := by omega
    have h2 : (2 : ℚ) ^ e = 1 / (2 : ℚ) ^ ((-e).toNat : ℕ) := by
      rw [one_div, ← zpow_natCast (2 : ℚ) (-e).toNat, ← zpow_neg]
      exact congrArg (fun z => (2 : ℚ) ^ z) hke
    rw [h2, div_le_div_iff (by positivity) hd0, one_mul]
    have hcast : ((2 ^ (-e).toNat * n : ℕ) : ℚ) = (n : ℚ) * (2 : ℚ) ^ ((-e).toNat : ℕ) := by
      push_cast
      ring
    constructor
    · intro h
      rw [← hcast]
      exact_mod_cast h
    · intro h
      rw [← hcast] at h
      exact_mod_cast h

theorem qFloorLog2_spec (n d : Nat) (hn : 1 ≤ n) (hd : 1 ≤ d) :
    (2 : ℚ) ^ qFloorLog2 n d ≤ (n : ℚ) / (d : ℚ) ∧
      (n : ℚ) / (d : ℚ) < 2 ^ (qFloorLog2 n d + 1) := by
  have hd0 : (0 : ℚ) < (d : ℚ) := by exact_mod_cast hd
  obtain ⟨hn1, hn2⟩ := natLog2_spec n hn
  obtain ⟨hd1, hd2⟩ := natLog2_spec d hd
  have hzn : ∀ k : ℕ, ((2 ^ k : ℕ) : ℚ) = (2 : ℚ) ^ (k : ℤ) := by
    intro k
    push_cast
    rw [zpow_natCast]
  have hnq1 : (2 : ℚ) ^ ((natLog2 n : ℕ) : ℤ) ≤ (n : ℚ) := by
    rw [← hzn]
    exact_mod_cast hn1
  have hnq2 : (n : ℚ) < (2 : ℚ) ^ (((natLog2 n : ℕ) : ℤ) + 1) := by
    have : ((natLog2 n : ℕ) : ℤ) + 1 = ((natLog2 n + 1 : ℕ) : ℤ) := by push_cast; ring
    rw [this, ← hzn]
    exact_mod_cast hn2
  have hdq1 : (2 : ℚ) ^ ((natLog2 d : ℕ) : ℤ) ≤ (d : ℚ) := by
    rw [← hzn]
    exact_mod_cast hd1
  have hdq2 : (d : ℚ) < (2 : ℚ) ^ (((natLog2 d : ℕ) : ℤ) + 1) := by
    have : ((natLog2 d : ℕ) : ℤ) + 1 = ((natLog2 d + 1 : ℕ) : ℤ) := by push_cast; ring
    rw [this, ← hzn]
    exact_mod_cast hd2
  set A : ℤ := ((natLog2 n : ℕ) : ℤ)
  set B : ℤ := ((natLog2 d : ℕ) : ℤ)
  have hub : (n : ℚ) / (d : ℚ) < 2 ^ (A - B + 1) := by
    rw [div_lt_iff hd0]
    have hsplit : (2 : ℚ) ^ (A + 1) = 2 ^ (A - B + 1) * 2 ^ B := by
      rw [← zpow_add₀ (by norm_num : (2 : ℚ) ≠ 0)]
      congr 1
      omega
    calc (n : ℚ) < 2 ^ (A + 1) := hnq2
      _ = 2 ^ (A - B + 1) * 2 ^ B := hsplit
      _ ≤ 2 ^ (A - B + 1) * (d : ℚ) := by
          apply mul_le_mul_of_nonneg_left hdq1
          positivity
  have hlb : (2 : ℚ) ^ (A - B - 1) < (n : ℚ) / (d : ℚ) := by
    rw [lt_div_iff hd0]
    have hsplit : (2 : ℚ) ^ A = 2 ^ (A - B - 1) * 2 ^ (B + 1) := by
      rw [← zpow_add₀ (by norm_num : (2 : ℚ) ≠ 0)]
      congr 1
      omega
    calc (2 : ℚ) ^ (A - B - 1) * (d : ℚ)
        < 2 ^ (A - B - 1) * 2 ^ (B + 1) := by
          apply mul_lt_mul_of_pos_left hdq2
          positivity
      _ = 2 ^ A := hsplit.symm
      _ ≤ (n : ℚ) := hnq1
  simp only [qFloorLog2]
  by_cases hb1 : pow2LEB (A - B + 1) n d = true
  · rw [if_pos hb1]
    refine ⟨(pow2LEB_iff _ n d hd).mp hb1, ?_⟩
    calc (n : ℚ) / (d : ℚ) < 2 ^ (A - B + 1) := hub
      _ ≤ 2 ^ (A - B + 1 + 1) := zpow_le_zpow_right₀ one_le_two (by omega)
  · rw [if_neg hb1]
    by_cases hb2 : pow2LEB (A - B) n d = true
    · rw [if_pos hb2]
      refine ⟨(pow2LEB_iff _ n d hd).mp hb2, ?_⟩
      have := (pow2LEB_iff (A - B + 1) n d hd).not.mp (by simp [hb1])
      exact not_le.mp this
    · rw [if_neg hb2]
      have hup := (pow2LEB_iff (A - B) n d hd).not.mp (by simp [hb2])
      refine ⟨le_of_lt hlb, ?_⟩
      have : A - B - 1 + 1 = A - B := by omega
      rw [this]
      exact not_le.mp hup

theorem fl64PosPair_nonneg (n d : Nat) : 0 ≤ fl64PosPair n d := by
  simp only [fl64PosPair]
  split
  · exact le_refl 0
  · split
    · exact Nat.cast_nonneg _
    · rw [Rat.mkRat_eq_div]
      positivity

theorem fl64Pair_nonneg (n : ℤ) (d : Nat) (h : 0 ≤ n) : 0 ≤ fl64Pair n d := by
  simp only [fl64Pair, if_neg (not_lt.mpr h)]
  exact fl64PosPair_nonneg _ _

theorem fl64Pair_nonpos (n : ℤ) (d : Nat) (h : n < 0) : fl64Pair n d ≤ 0 := by
  simp only [fl64Pair, if_pos h]
  exact neg_nonpos.mpr (fl64PosPair_nonneg _ _)

theorem fl64PosPair_err (n d : Nat) (hn : 1 ≤ n) (hd : 1 ≤ d) :
    |fl64PosPair n d - (n : ℚ) / (d : ℚ)| ≤ ((n : ℚ) / (d : ℚ)) / 2 ^ 53 := by
  have hd0 : (0 : ℚ) < (d : ℚ) := by exact_mod_cast hd
  have hn0 : ¬ (n = 0) := by omega
  obtain ⟨hle, hlt⟩ := qFloorLog2_spec n d hn hd
  simp only [fl64PosPair, if_neg hn0]
  by_cases hs : (0 : ℤ) ≤ qFloorLog2 n d - 52
  · rw [if_pos hs]
    have hstz : (((qFloorLog2 n d - 52).toNat : ℕ) : ℤ) = qFloorLog2 n d - 52 :=
      Int.toNat_of_nonneg hs
    set st := (qFloorLog2 n d - 52).toNat with hstdef
    set b2 : ℕ := d * 2 ^ st with hb2def
    have hb2 : 1 ≤ b2 := Nat.one_le_iff_ne_zero.mpr (by positivity)
    have hb20 : (0 : ℚ) < (b2 : ℚ) := by exact_mod_cast hb2
    have herr := rneDiv_spec n b2 hb2
    have hval : ((rneDiv n b2 * 2 ^ st : ℕ) : ℚ) - (n : ℚ) / (d : ℚ)
        = (2 : ℚ) ^ st * (((rneDiv n b2 : ℕ) : ℚ) - (n : ℚ) / (b2 : ℚ)) := by
      have : ((b2 : ℕ) : ℚ) = (d : ℚ) * (2 : ℚ) ^ st := by
        rw [hb2def]
        push_cast
        ring
      push_cast [this]
      field_simp
      ring
    rw [hval, abs_mul, abs_of_nonneg (by positivity : (0 : ℚ) ≤ (2 : ℚ) ^ st)]
    have hstep : (2 : ℚ) ^ st * |((rneDiv n b2 : ℕ) : ℚ) - (n : ℚ) / (b2 : ℚ)|
        ≤ (2 : ℚ) ^ st * (1 / 2) :=
      mul_le_mul_of_nonneg_left herr (by positivity)
    refine le_trans hstep ?_
    rw [le_div_iff (by positivity : (0 : ℚ) < (2 : ℚ) ^ 53)]
    have hze : (2 : ℚ) ^ qFloorLog2 n d = (2 : ℚ) ^ (st + 52 : ℕ) := by
      rw [← zpow_natCast (2 : ℚ) (st + 52)]
      congr 1
      omega
    calc (2 : ℚ) ^ st * (1 / 2) * 2 ^ 53 = 2 ^ (st + 52 : ℕ) := by
          rw [pow_add]
          ring
      _ = (2 : ℚ) ^ qFloorLog2 n d := hze.symm
      _ ≤ (n : ℚ) / (d : ℚ) := hle
  · rw [if_neg hs]
    have hkz : (((-(qFloorLog2 n d - 52)).toNat : ℕ) : ℤ) = 52 - qFloorLog2 n d := by
      rw [Int.toNat_of_nonneg (by omega)]
      omega
    set k := (-(qFloorLog2 n d - 52)).toNat with hkdef
    have hk0 : (0 : ℚ) < (2 : ℚ) ^ k := by positivity
    have herr := rneDiv_spec (n * 2 ^ k) d hd
    have hval : (mkRat (rneDiv (n * 2 ^ k) d) (2 ^ k) : ℚ) - (n : ℚ) / (d : ℚ)
        = (1 / (2 : ℚ) ^ k) *
          (((rneDiv (n * 2 ^ k) d : ℕ) : ℚ) - ((n * 2 ^ k : ℕ) : ℚ) / (d : ℚ)) := by
      rw [Rat.mkRat_eq_div]
      push_cast
      field_simp
      ring
    rw [hval, abs_mul, abs_of_nonneg (by positivity : (0 : ℚ) ≤ 1 / (2 : ℚ) ^ k)]
    have hstep : (1 / (2 : ℚ) ^ k) *
        |((rneDiv (n * 2 ^ k) d : ℕ) : ℚ) - ((n * 2 ^ k : ℕ) : ℚ) / (d : ℚ)|
        ≤ (1 / (2 : ℚ) ^ k) * (1 / 2) :=
      mul_le_mul_of_nonneg_left herr (by positivity)
    refine le_trans hstep ?_
    rw [div_mul_div_comm, one_mul, div_le_div_iff (by positivity) (by positivity)]
    have hze : (2 : ℚ) ^ qFloorLog2 n d * ((2 : ℚ) ^ k * 2) = 2 ^ 53 := by
      rw [← zpow_natCast (2 : ℚ) k, ← zpow_add_one₀ (by norm_num : (2 : ℚ) ≠ 0),
        ← zpow_add₀ (by norm_num : (2 : ℚ) ≠ 0), ← zpow_natCast (2 : ℚ) 53]
      congr 1
      omega
    calc (1 : ℚ) * 2 ^ 53 = 2 ^ 53 := one_mul _
      _ = (2 : ℚ) ^ qFloorLog2 n d * ((2 : ℚ) ^ k * 2) := hze.symm
      _ ≤ (n : ℚ) / (d : ℚ) * ((2 : ℚ) ^ k * 2) := by
          apply mul_le_mul_of_nonneg_right hle
          positivity

theorem ratRoundHalfAway_nonneg (q : ℚ) (h : 0 ≤ q) : 0 ≤ ratRoundHalfAway q := by
  have hn : 0 ≤ q.num := Rat.num_nonneg.mpr h
  simp only [ratRoundHalfAway, if_pos hn]
  exact Int.ediv_nonneg (by linarith [Int.natCast_nonneg q.den])
    (by linarith [Int.natCast_nonneg q.den])

theorem ratRoundHalfAway_nonpos (q : ℚ) (h : q ≤ 0) : ratRoundHalfAway q ≤ 0 := by
  have hn : q.num ≤ 0 := Rat.num_nonpos.mpr h
  have hd : (0 : ℤ) < (q.den : ℤ) := by
    exact_mod_cast Nat.pos_of_ne_zero q.den_nz
  by_cases h0 : 0 ≤ q.num
  · have hz : q.num = 0 := le_antisymm hn h0
    simp only [ratRoundHalfAway, if_pos h0, hz]
    have : 2 * (0 : ℤ) + (q.den : ℤ) = (q.den : ℤ) := by ring
    rw [this]
    exact le_of_eq (Int.ediv_eq_zero_of_lt (le_of_lt hd) (by omega))
  · simp only [ratRoundHalfAway, if_neg h0]
    have h1 : 0 ≤ (2 * (-q.num) + (q.den : ℤ)) / (2 * (q.den : ℤ)) :=
      Int.ediv_nonneg (by omega) (by omega)
    omega

theorem ratRoundHalfAway_of_nonneg (q : ℚ) (h : 0 ≤ q) :
    ratRoundHalfAway q = Int.floor (q + 1 / 2) := by
  have hn : 0 ≤ q.num := Rat.num_nonneg.mpr h
  have hd : (q.den : ℚ) ≠ 0 := by
    exact_mod_cast q.den_nz
  have hnum : (q.num : ℚ) = q * (q.den : ℚ) := (div_eq_iff hd).mp (Rat.num_div_den q)
  have key := Rat.floor_intCast_div_natCast (2 * q.num + (q.den : ℤ)) (2 * q.den)
  have harg : q + 1 / 2 =
      ((2 * q.num + (q.den : ℤ) : ℤ) : ℚ) / ((2 * q.den : ℕ) : ℚ) := by
    have hd0 : ((2 * q.den : ℕ) : ℚ) ≠ 0 := by
      push_cast
      simp [hd]
    rw [eq_div_iff hd0]
    push_cast
    rw [hnum]
    ring
  rw [harg, key]
  simp only [ratRoundHalfAway, if_pos hn]
  push_cast
  ring_nf

set_option maxRecDepth 40000 in
/-- The code's scale constant: the u128-to-f64 cast of the 10^24 literal
is exactly `FL64_TEN24 = 10^24 - 2^24` under round to nearest even. -/
theorem fl64Pair_ten24 : fl64Pair TEN24 1 = ((FL64_TEN24 : ℤ) : ℚ) := by decide

/-- C4 amended: the code computes the price in f64, not in exact
arithmetic. For every non-negative price `p` (the exact value of the f64
argument) whose result fits in `u128`, the stored unit price is
`⌊fl(p * C) + 1/2⌋ + MINT_FEE` — round half away from zero of the
binary64 product — where `C = FL64_TEN24 = 10^24 - 2^24` is the f64
value of the `10^24` literal and `fl` is binary64 round to nearest even,
correctly rounded with relative error at most `2^-53` (second conjunct).
For every negative price the call is NOT rejected — there is no
`InvalidPrice` path: the saturating cast yields `0` and the stored unit
price is exactly `MINT_FEE`. -/
theorem claim_C4_amended (p : ℚ) :
    (0 ≤ p →
      (ratRoundHalfAway (fl64Pair (p.num * FL64_TEN24) p.den)).toNat + MINT_FEE < U128_MOD →
      computedTicketPrice p =
        (Int.floor (fl64Pair (p.num * FL64_TEN24) p.den + 1 / 2)).toNat + MINT_FEE) ∧
    (0 < p →
      |fl64Pair (p.num * FL64_TEN24) p.den - p * ((FL64_TEN24 : ℤ) : ℚ)| ≤
        p * ((FL64_TEN24 : ℤ) : ℚ) / 2 ^ 53) ∧
    (p < 0 → computedTicketPrice p = MINT_FEE) := by
  have hMF : MINT_FEE < U128_MOD := by decide
  have hF : (0 : ℤ) < FL64_TEN24 := by decide
  refine ⟨?_, ?_, ?_⟩
  · intro h hrange
    have hn : 0 ≤ p.num := Rat.num_nonneg.mpr h
    have hz0 : 0 ≤ fl64Pair (p.num * FL64_TEN24) p.den :=
      fl64Pair_nonneg _ _ (mul_nonneg hn (le_of_lt hF))
    have hr : 0 ≤ ratRoundHalfAway (fl64Pair (p.num * FL64_TEN24) p.den) :=
      ratRoundHalfAway_nonneg _ hz0
    rw [computedTicketPrice, u128SaturatingOfInt, if_neg (not_lt.mpr hr)]
    have hmin : min (ratRoundHalfAway (fl64Pair (p.num * FL64_TEN24) p.den)).toNat
        (U128_MOD - 1) = (ratRoundHalfAway (fl64Pair (p.num * FL64_TEN24) p.den)).toNat :=
      min_eq_left (by omega)
    rw [hmin, Nat.mod_eq_of_lt hrange, ratRoundHalfAway_of_nonneg _ hz0]
  · intro hp
    have hn1 : 1 ≤ p.num := Rat.num_pos.mpr hp
    have hnn : 0 ≤ p.num * FL64_TEN24 := mul_nonneg (by omega) (le_of_lt hF)
    have hd1 : 1 ≤ p.den := Nat.pos_of_ne_zero p.den_nz
    have hdq : (p.den : ℚ) ≠ 0 := by
      exact_mod_cast p.den_nz
    have hnum : (p.num : ℚ) = p * (p.den : ℚ) := (div_eq_iff hdq).mp (Rat.num_div_den p)
    have hone : (1 : ℤ) ≤ p.num * FL64_TEN24 :=
      calc (1 : ℤ) = 1 * 1 := by ring
        _ ≤ p.num * FL64_TEN24 := mul_le_mul hn1 (by decide) (by norm_num) (by omega)
    have hn1' : 1 ≤ (p.num * FL64_TEN24).toNat := by omega
    have hcast : (((p.num * FL64_TEN24).toNat : ℕ) : ℚ) = ((p.num * FL64_TEN24 : ℤ) : ℚ) := by
      exact_mod_cast Int.toNat_of_nonneg hnn
    have hval : (((p.num * FL64_TEN24).toNat : ℕ) : ℚ) / (p.den : ℚ) =
        p * ((FL64_TEN24 : ℤ) : ℚ) := by
      rw [hcast]
      push_cast
      field_simp
      linear_combination ((FL64_TEN24 : ℤ) : ℚ) * hnum
    have herr := fl64PosPair_err (p.num * FL64_TEN24).toNat p.den hn1' hd1
    rw [hval] at herr
    have hfl : fl64Pair (p.num * FL64_TEN24) p.den =
        fl64PosPair (p.num * FL64_TEN24).toNat p.den := by
      rw [fl64Pair, if_neg (not_lt.mpr hnn)]
    rw [hfl]
    exact herr
  · intro h
    have hn : p.num < 0 := Rat.num_neg.mpr h
    have hz0 : fl64Pair (p.num * FL64_TEN24) p.den ≤ 0 :=
      fl64Pair_nonpos _ _ (mul_neg_of_neg_of_pos hn hF)
    have hr : ratRoundHalfAway (fl64Pair (p.num * FL64_TEN24) p.den) ≤ 0 :=
      ratRoundHalfAway_nonpos _ hz0
    rw [computedTicketPrice, u128SaturatingOfInt]
    by_cases hlt : ratRoundHalfAway (fl64Pair (p.num * FL64_TEN24) p.den) < 0
    · rw [if_pos hlt, Nat.zero_add, Nat.mod_eq_of_lt hMF]
    · have h0 : ratRoundHalfAway (fl64Pair (p.num * FL64_TEN24) p.den) = 0 :=
        le_antisymm hr (not_lt.mp hlt)
      rw [if_neg hlt, h0]
      simp only [Int.toNat_zero, Nat.zero_min, Nat.zero_add]
      exact Nat.mod_eq_of_lt hMF

set_option maxRecDepth 40000 in
/-- C4 as stated is false on the code twice over. (1) No rejection:
at price `-1` the spec-side `price_for_spec` rejects (`none`) while
`create_new_show` succeeds and stores unit price `MINT_FEE` (the
negative rounded product saturates to 0 in the `as u128` cast). (2) The
exact formula is false: the f64 scale constant is
`10^24 - 2^24 = 999999999999999983222784`, so at price `1.0` the code
stores `999999999999999983222784 + MINT_FEE = 1009999999999999983222784`
and not the claimed `round(1.0 * 10^24) + MINT_FEE =
1010000000000000000000000` that `price_for_spec` yields. -/
theorem claim_C4_counterexample :
    price_for_spec (-1) MINT_FEE = none ∧
    create_new_show bugC0 "org" "neg" none none ["t"] [5] [-1] 0 100 = .ok negShowC ∧
    priceOfType negShowC "neg" "t" = some MINT_FEE ∧
    (FL64_TEN24 : ℤ) = TEN24 - 2 ^ 24 ∧
    fl64Pair TEN24 1 = ((FL64_TEN24 : ℤ) : ℚ) ∧
    price_for_spec 1 MINT_FEE = some (1000000000000000000000000 + MINT_FEE) ∧
    computedTicketPrice 1 = 999999999999999983222784 + MINT_FEE ∧
    computedTicketPrice 1 ≠ 1000000000000000000000000 + MINT_FEE := by
  decide

set_option maxRecDepth 40000 in
/-- Witness for the amended C4 at price 3/2 (nonnegative branch and
error bound) and price -2 (negative branch). -/
theorem claim_C4_amended_witness :
    ((0 : ℚ) ≤ mkRat 3 2 ∧
      (ratRoundHalfAway (fl64Pair ((mkRat 3 2).num * FL64_TEN24) (mkRat 3 2).den)).toNat +
        MINT_FEE < U128_MOD ∧
      computedTicketPrice (mkRat 3 2) =
        (Int.floor (fl64Pair ((mkRat 3 2).num * FL64_TEN24) (mkRat 3 2).den + 1 / 2)).toNat +
          MINT_FEE) ∧
    ((0 : ℚ) < mkRat 3 2 ∧
      |fl64Pair ((mkRat 3 2).num * FL64_TEN24) (mkRat 3 2).den -
          (mkRat 3 2) * ((FL64_TEN24 : ℤ) : ℚ)| ≤
        (mkRat 3 2) * ((FL64_TEN24 : ℤ) : ℚ) / 2 ^ 53) ∧
    ((-2 : ℚ) < 0 ∧ computedTicketPrice (-2) = MINT_FEE) := by
  refine ⟨⟨by decide, by decide, (claim_C4_amended (mkRat 3 2)).1 (by decide) (by decide)⟩,
    ⟨by decide, (claim_C4_amended (mkRat 3 2)).2.1 (by decide)⟩,
    ⟨by decide, (claim_C4_amended (-2)).2.2 (by decide)⟩⟩

/-- C5 as stated is false on the code at the boundary `now = start`:
the claim says the time checks succeed exactly on `start ≤ now < end`
and that `NotStarted` fires iff `now < start`, but `buy_ticket` requires
`now > start` strictly, so at `now = start = 5` it fails `NotStarted`
although `now < start` does not hold. -/
theorem claim_C5_counterexample :
    buy_ticket c5c "al" 50 5 "s" "t" = .error .notStarted ∧ ¬ (5 < 5) := by
  decide

/-- C5 amended: the sale window is the OPEN interval `(start, end)`:
with the show present, `buy_ticket` fails `NotStarted` iff
`now ≤ start`, and fails `Ended` iff `start < now` and `now ≥ end`
(so the time checks pass iff `start < now < end`). -/
theorem claim_C5_amended (c : Contract) (caller : AccountId) (deposit now : Nat)
    (sid ty : String) (sh : ShowMetadata) (hsh : getMap c.shows sid = some sh) :
    (buy_ticket c caller deposit now sid ty = .error .notStarted ↔
      now ≤ sh.selling_start_time) ∧
    (buy_ticket c caller deposit now sid ty = .error .ended ↔
      (sh.selling_start_time < now ∧ sh.selling_end_time ≤ now)) := by
  simp only [buy_ticket, hsh]
  by_cases h1 : now > sh.selling_start_time
  · by_cases h2 : now < sh.selling_end_time
    · rcases hty : getMap sh.ticket_infos ty with _ | info
      · simp only [h1, h2, hty, not_true, if_neg, ite_false, not_lt, not_false_iff]
        constructor <;> simp <;> omega
      · by_cases h3 : info.sold < info.supply <;> by_cases h4 : deposit ≥ info.price <;>
          simp [h1, h2, hty, h3, h4] <;> omega
    · simp [h1, h2] <;> omega
  · simp [h1] <;> omega

/-- Witness for the amended C5 at `now = 4` against a show with window
`[5, 10]` fields (the time checks there fail `NotStarted` since `4 ≤ 5`). -/
theorem claim_C5_amended_witness :
    getMap c5c.shows "s" = some c5show ∧
    ((buy_ticket c5c "al" 0 4 "s" "t" = .error .notStarted ↔ 4 ≤ 5) ∧
      (buy_ticket c5c "al" 0 4 "s" "t" = .error .ended ↔ (5 < 4 ∧ 10 ≤ 4))) :=
  ⟨rfl, claim_C5_amended c5c "al" 0 4 "s" "t" c5show rfl⟩

/-- C6: an admitted `buy_ticket` leaves the contract state unchanged (in
particular `sold` is not incremented) and forms the token id as
`{show_id}.{ticket_type}.{current sold}` from the current `sold` value;
the increment of `sold`, by exactly one, happens only in the confirmed
mint step `nft_private_mint`. -/
theorem claim_C6_token_id_and_increment :
    (∀ (c : Contract) (caller : AccountId) (deposit now : Nat) (sid ty : String)
       (sh : ShowMetadata) (info : TicketInfo) (c2 : Contract) (pr : BuyPromise),
       getMap c.shows sid = some sh → getMap sh.ticket_infos ty = some info →
       buy_ticket c caller deposit now sid ty = .ok (c2, pr) →
       c2 = c ∧ pr.ticket_id = sid ++ "." ++ ty ++ "." ++ Nat.repr info.sold) ∧
    (∀ (d : Contract) (cal cur : AccountId) (now2 : Nat) (tid : String)
       (recv : AccountId) (sid ty : String) (rest : List String)
       (sh : ShowMetadata) (info : TicketInfo) (d2 : Contract),
       rustSplitDot tid = sid :: ty :: rest →
       getMap d.shows sid = some sh → getMap sh.ticket_infos ty = some info →
       info.sold + 1 < U32_MOD →
       nft_private_mint d cal cur now2 tid recv = .ok d2 →
       soldOf d2 sid ty = some (info.sold + 1)) := by
  constructor
  · intro c caller deposit now sid ty sh info c2 pr hsh hin hbuy
    simp only [buy_ticket, hsh, hin] at hbuy
    split at hbuy
    · simp at hbuy
    · split at hbuy
      · simp at hbuy
      · split at hbuy
        · simp at hbuy
        · split at hbuy
          · simp at hbuy
          · rw [Except.ok.injEq, Prod.mk.injEq] at hbuy
            obtain ⟨hc, hp⟩ := hbuy
            subst hc
            subst hp
            exact ⟨rfl, rfl⟩
  · intro d cal cur now2 tid recv sid ty rest sh info d2 hsplit hsh hin hlt hmint
    simp only [nft_private_mint, hsplit, hsh, hin] at hmint
    split at hmint
    · simp at hmint
    · split at hmint
      · simp at hmint
      · rw [Except.ok.injEq] at hmint
        subst hmint
        simp [soldOf, getMap_insertMap_self, Nat.mod_eq_of_lt hlt]

/-- Witness for C6: an admitted purchase against a type with `sold = 3`
produces token id `"s.t.3"` and changes nothing; its confirmed mint
raises `sold` to 4. -/
theorem claim_C6_witness :
    (getMap c6c.shows "s" = some c6show ∧ getMap c6show.ticket_infos "t" = some c6info ∧
      buy_ticket c6c "al" 50 1 "s" "t" = .ok (c6c, c6pr) ∧
      c6pr.ticket_id = "s" ++ "." ++ "t" ++ "." ++ Nat.repr c6info.sold) ∧
    (rustSplitDot "s.t.3" = "s" :: "t" :: ["3"] ∧ c6info.sold + 1 < U32_MOD ∧
      nft_private_mint c6c "me" "me" 7 "s.t.3" "al" = .ok c6mintC ∧
      soldOf c6mintC "s" "t" = some (c6info.sold + 1)) := by
  have h1 := (claim_C6_token_id_and_increment).1 c6c "al" 50 1 "s" "t" c6show c6info c6c c6pr
    rfl rfl (by decide)
  have h2 := (claim_C6_token_id_and_increment).2 c6c "me" "me" 7 "s.t.3" "al" "s" "t" ["3"]
    c6show c6info c6mintC (by decide) rfl rfl (by decide) (by decide)
  exact ⟨⟨rfl, rfl, by decide, h1.2⟩, ⟨by decide, by decide, by decide, h2⟩⟩

/-- C7: past the show, time-window and sold-out checks, a deposit
exactly equal to the type's `unit_price` is admitted; a deposit one unit
below fails `InsufficientDeposit`; a deposit above is admitted with no
refund of the excess — no transfer back to the buyer is scheduled by the
admission, and the continuation refund amount passed on is the
`unit_price` itself, not the attached deposit. -/
theorem claim_C7_deposit_policy (c : Contract) (caller : AccountId) (now : Nat)
    (sid ty : String) (sh : ShowMetadata) (info : TicketInfo)
    (hsh : getMap c.shows sid = some sh)
    (h1 : sh.selling_start_time < now) (h2 : now < sh.selling_end_time)
    (hin : getMap sh.ticket_infos ty = some info)
    (hsold : info.sold < info.supply) :
    (buy_ticket c caller info.price now sid ty).isOk = true ∧
    (0 < info.price →
      buy_ticket c caller (info.price - 1) now sid ty = .error .insufficientDeposit) ∧
    (∀ dep, info.price < dep →
      buy_ticket c caller dep now sid ty = .ok (c,
        { ticket_id := sid ++ "." ++ ty ++ "." ++ Nat.repr info.sold,
          receiver_id := caller, mint_attached := MINT_FEE,
          cb_buyer := caller, cb_price := info.price })) := by
  refine ⟨?_, ?_, ?_⟩
  · simp [buy_ticket, hsh, hin, h1, h2, hsold, Except.isOk, Except.toBool]
  · intro hpos
    have hc : ¬ (info.price - 1 ≥ info.price) := by omega
    simp [buy_ticket, hsh, hin, h1, h2, hsold, hc]
  · intro dep hdep
    have hc : dep ≥ info.price := le_of_lt hdep
    simp [buy_ticket, hsh, hin, h1, h2, hsold, hc]

/-- Witness for C7 at a type with price 50: deposit 50 admitted, 49
rejected, 51 admitted with continuation refund amount still 50. -/
theorem claim_C7_witness :
    (getMap c6c.shows "s" = some c6show ∧ getMap c6show.ticket_infos "t" = some c6info ∧
      (0 : Nat) < 1 ∧ (1 : Nat) < 100 ∧ c6info.sold < c6info.supply ∧
      0 < c6info.price ∧ c6info.price < 51) ∧
    ((buy_ticket c6c "al" c6info.price 1 "s" "t").isOk = true ∧
      buy_ticket c6c "al" (c6info.price - 1) 1 "s" "t" = .error .insufficientDeposit ∧
      buy_ticket c6c "al" 51 1 "s" "t" = .ok (c6c, c6pr)) := by
  have h := claim_C7_deposit_policy c6c "al" 1 "s" "t" c6show c6info rfl
    (by decide) (by decide) rfl (by decide)
  exact ⟨⟨rfl, rfl, by decide, by decide, by decide, by decide, by decide⟩,
    ⟨h.1, h.2.1 (by decide), h.2.2 51 (by decide)⟩⟩

/-- C8: an admitted factory call appends the new deployment identity
(`{prefix}.{factory account}`) to the caller's listing, which is already
recorded in the state returned together with the issued chain; the
listing of every other organizer is untouched; and the failure
continuation `check_create_new_contract` leaves the whole listing map
unchanged (it only refunds), so the record grows by exactly one entry
per admitted call and no operation removes entries. -/
theorem claim_C8_listing (c : FactoryContract) (caller current pk pfx : String)
    (md : TicketContractMetadata) (deposit : Nat) :
    (deposit = CREATE_CONTRACT_FEE + INITIAL_BALANCE →
      ((create_new_ticket_contract c caller deposit current pk pfx md).toOption.map
          (fun x => getMap x.1.ticket_contracts_by_owner caller)) =
        some (some (get_contracts_by_owner c caller ++ [pfx ++ "." ++ current])) ∧
      (∀ a, a ≠ caller →
        ((create_new_ticket_contract c caller deposit current pk pfx md).toOption.map
            (fun x => getMap x.1.ticket_contracts_by_owner a)) =
          some (getMap c.ticket_contracts_by_owner a)) ∧
      ((create_new_ticket_contract c caller deposit current pk pfx md).toOption.map
          (fun x => x.2.cb_creater_account)) = some caller) ∧
    (∀ (g : FactoryContract) (cr : AccountId) (res : List PromiseResult),
      (check_create_new_contract g cr res).1 = g) := by
  constructor
  · intro h
    refine ⟨?_, ?_, ?_⟩
    · simp [create_new_ticket_contract, h, get_contracts_by_owner,
        getMap_insertMap_self, Except.toOption]
    · intro a ha
      simp [create_new_ticket_contract, h, Except.toOption,
        getMap_insertMap_ne _ caller a _ (Ne.symm ha)]
    · simp [create_new_ticket_contract, h, Except.toOption]
  · intro g cr res
    rfl

/-- Witness for C8 at concrete inputs: the admitted call appends
`"gala.factory"` to the caller's empty listing, another organizer's
listing is unchanged, and the continuation leaves the state unchanged. -/
theorem claim_C8_witness :
    ((create_new_ticket_contract fcW "al" (CREATE_CONTRACT_FEE + INITIAL_BALANCE)
        "factory" "pk" "gala" mdW).toOption.map
        (fun x => getMap x.1.ticket_contracts_by_owner "al")) =
      some (some (get_contracts_by_owner fcW "al" ++ ["gala" ++ "." ++ "factory"])) ∧
    "bob" ≠ "al" ∧
    ((create_new_ticket_contract fcW "al" (CREATE_CONTRACT_FEE + INITIAL_BALANCE)
        "factory" "pk" "gala" mdW).toOption.map
        (fun x => getMap x.1.ticket_contracts_by_owner "bob")) =
      some (getMap fcW.ticket_contracts_by_owner "bob") ∧
    (check_create_new_contract fcW "cr2" [PromiseResult.failed]).1 = fcW := by
  have h := claim_C8_listing fcW "al" "factory" "pk" "gala" mdW
    (CREATE_CONTRACT_FEE + INITIAL_BALANCE)
  exact ⟨(h.1 rfl).1, by decide, (h.1 rfl).2.1 "bob" (by decide),
    h.2 fcW "cr2" [PromiseResult.failed]⟩

/-- C9: `check_ticket` (redemption) requires the exact 1-yocto
micro-payment, fails `NotOwner` when the caller is not the token's
current owner per the ledger, fails `NotFound` when the ticket metadata
is absent, and otherwise sets `is_used = true`; redeeming again from the
same state succeeds and changes nothing (redeeming twice equals
redeeming once). -/
theorem claim_C9_redeem (c : Contract) (caller : AccountId) (deposit : Nat) (tid : String) :
    (deposit ≠ 1 → check_ticket c caller deposit tid = .error .oneYoctoRequired) ∧
    (getMap c.owner_by_id tid ≠ some caller →
      check_ticket c caller 1 tid = .error .notOwner) ∧
    (getMap c.owner_by_id tid = some caller → getMap c.tickets tid = none →
      check_ticket c caller 1 tid = .error .ticketNotFound) ∧
    (∀ t, getMap c.owner_by_id tid = some caller → getMap c.tickets tid = some t →
      check_ticket c caller 1 tid =
        .ok { c with tickets := insertMap c.tickets tid { t with is_used := true } } ∧
      check_ticket { c with tickets := insertMap c.tickets tid { t with is_used := true } }
          caller 1 tid =
        .ok { c with tickets := insertMap c.tickets tid { t with is_used := true } }) := by
  refine ⟨?_, ?_, ?_, ?_⟩
  · intro h
    simp [check_ticket, h]
  · intro h
    simp [check_ticket, h]
  · intro h1 h2
    simp [check_ticket, h1, h2]
  · intro t h1 h2
    constructor
    · simp [check_ticket, h1, h2]
    · simp [check_ticket, h1, getMap_insertMap_self, insertMap_insertMap_self]

/-- Witness for C9: all four branches at a concrete state, including the
double redemption fixed point. -/
theorem claim_C9_witness :
    check_ticket c9c "al" 2 "s.t.0" = .error .oneYoctoRequired ∧
    check_ticket c9c "bob" 1 "s.t.0" = .error .notOwner ∧
    check_ticket c9c "al" 1 "x" = .error .ticketNotFound ∧
    check_ticket c9c "al" 1 "s.t.0" = .ok c9c2 ∧
    check_ticket c9c2 "al" 1 "s.t.0" = .ok c9c2 := by
  have h4 := (claim_C9_redeem c9c "al" 1 "s.t.0").2.2.2 c9t rfl rfl
  exact ⟨(claim_C9_redeem c9c "al" 2 "s.t.0").1 (by decide),
    (claim_C9_redeem c9c "bob" 1 "s.t.0").2.1 (by decide),
    (claim_C9_redeem c9c "al" 1 "x").2.2.1 rfl rfl,
    h4.1, h4.2⟩

theorem buildTicketInfos_ok (types : List String) :
    ∀ (ss : List Nat) (ps : List ℚ) (acc : List (String × TicketInfo)),
    types.length ≤ ss.length → types.length ≤ ps.length →
    ∃ infos, buildTicketInfos types ss ps acc = .ok infos ∧
      ∀ name, (name ∈ types ∨ (getMap acc name).isSome = true) →
        (getMap infos name).isSome = true := by
  induction types with
  | nil =>
      intro ss ps acc h1 h2
      refine ⟨acc, rfl, ?_⟩
      rintro name (h | h)
      · simp at h
      · exact h
  | cons t tys ih =>
      intro ss ps acc h1 h2
      cases ss with
      | nil => simp at h1
      | cons s ss2 =>
          cases ps with
          | nil => simp at h2
          | cons p ps2 =>
              obtain ⟨infos, heq, hmem⟩ := ih ss2 ps2
                (insertMap acc t
                  { supply := s, ticket_type := t, price := computedTicketPrice p,
                    sold := 0, selling_start_time := some 0, selling_end_time := some 0 })
                (by simpa using h1) (by simpa using h2)
              refine ⟨infos, ?_, ?_⟩
              · simpa [buildTicketInfos] using heq
              · intro name hn
                rcases hn with hmem2 | hacc
                · rcases List.mem_cons.mp hmem2 with rfl | hmem3
                  · exact hmem name (Or.inr (by simp [getMap_insertMap_self]))
                  · exact hmem name (Or.inl hmem3)
                · exact hmem name (Or.inr (getMap_insertMap_isSome _ _ _ _ hacc))

theorem buildTicketInfos_err (types : List String) :
    ∀ (ss : List Nat) (ps : List ℚ) (acc : List (String × TicketInfo)),
    (ss.length < types.length ∨ ps.length < types.length) →
    buildTicketInfos types ss ps acc = .error .indexOutOfRange := by
  induction types with
  | nil =>
      intro ss ps acc h
      rcases h with h | h <;> simp at h
  | cons t tys ih =>
      intro ss ps acc h
      cases ss with
      | nil => rfl
      | cons s ss2 =>
          cases ps with
          | nil => rfl
          | cons p ps2 =>
              have h2 : ss2.length < tys.length ∨ ps2.length < tys.length := by
                rcases h with h | h
                · exact Or.inl (by simpa using h)
                · exact Or.inr (by simpa using h)
              simpa [buildTicketInfos] using ih ss2 ps2
                (insertMap acc t
                  { supply := s, ticket_type := t, price := computedTicketPrice p,
                    sold := 0, selling_start_time := some 0, selling_end_time := some 0 }) h2

/-- C10: with a fresh show key and the owner calling, `create_new_show`
indexes `tickets_supply` and `ticket_prices` at every position of
`ticket_types`: when both vectors are at least as long as `ticket_types`
the call is admitted and the persisted show has a `TicketType` for every
listed name; when either vector is shorter the call aborts on an
out-of-range index (panic) and, a panic reverting the call, no show is
persisted. -/
theorem claim_C10_indexing (c : Contract) (caller sid : String)
    (st sd : Option String) (types : List String) (supplies : List Nat)
    (prices : List ℚ) (t0 t1 : Nat)
    (hfresh : getMap c.shows sid = none) (hown : caller = c.owner_id) :
    (types.length ≤ supplies.length → types.length ≤ prices.length →
      (create_new_show c caller sid st sd types supplies prices t0 t1).isOk = true ∧
      ∀ name ∈ types,
        Except.map (fun c2 => ((getMap c2.shows sid).map
            (fun sh => (getMap sh.ticket_infos name).isSome)).getD false)
          (create_new_show c caller sid st sd types supplies prices t0 t1) = .ok true) ∧
    ((supplies.length < types.length ∨ prices.length < types.length) →
      create_new_show c caller sid st sd types supplies prices t0 t1 =
        .error .indexOutOfRange) := by
  subst hown
  constructor
  · intro hs hp
    obtain ⟨infos, heq, hmem⟩ := buildTicketInfos_ok types supplies prices [] hs hp
    constructor
    · simp [create_new_show, hfresh, heq, Except.isOk, Except.toBool]
    · intro name hn
      have hsome := hmem name (Or.inl hn)
      simp [create_new_show, hfresh, heq, Except.map, getMap_insertMap_self, hsome]
  · intro h
    have herr := buildTicketInfos_err types supplies prices [] h
    simp [create_new_show, hfresh, herr]

/-- Witness for C10: two types with long-enough vectors are admitted and
both types persisted; a supplies vector of length 1 for two types aborts
out of range. -/
theorem claim_C10_witness :
    (getMap bugC0.shows "w" = none ∧ "org" = bugC0.owner_id) ∧
    ((create_new_show bugC0 "org" "w" none none ["x", "y"] [2, 3] [1, 2] 0 9).isOk = true ∧
      Except.map (fun c2 => ((getMap c2.shows "w").map
          (fun sh => (getMap sh.ticket_infos "x").isSome)).getD false)
        (create_new_show bugC0 "org" "w" none none ["x", "y"] [2, 3] [1, 2] 0 9) = .ok true ∧
      Except.map (fun c2 => ((getMap c2.shows "w").map
          (fun sh => (getMap sh.ticket_infos "y").isSome)).getD false)
        (create_new_show bugC0 "org" "w" none none ["x", "y"] [2, 3] [1, 2] 0 9) = .ok true) ∧
    create_new_show bugC0 "org" "w" none none ["x", "y"] [2] [1, 2] 0 9 =
      .error .indexOutOfRange := by
  have h := claim_C10_indexing bugC0 "org" "w" none none ["x", "y"] [2, 3] [1, 2] 0 9 rfl rfl
  have h2 := claim_C10_indexing bugC0 "org" "w" none none ["x", "y"] [2] [1, 2] 0 9 rfl rfl
  exact ⟨⟨rfl, rfl⟩,
    ⟨(h.1 (by decide) (by decide)).1,
      (h.1 (by decide) (by decide)).2 "x" (by decide),
      (h.1 (by decide) (by decide)).2 "y" (by decide)⟩,
    h2.2 (by decide)⟩

end TicketVerify
